import Mathlib

/-!
# spaceballz: a line publisher / queue drainer over AMQP

A shallow embedding of `spaceballz.go`.

The program is effectful, so every function of the source becomes a Lean
function that takes the answers of the outside world (broker, file system,
operating system) as an explicit `World` and returns the list of effects it
performs, in order, together with how it ends.

* Go `error` values are modelled by their message; `nil` is `none`.
* Go `[]byte` is `List UInt8`; `string` flags and names are `String`.
* `bufio.Scanner` with `bufio.ScanLines` is library code; it is modelled on
  the unread remainder of the file with its `maxTokenSize` buffer limit.
* The two tasks that meet on the `done` channel (`Shutdown` and `handle`) are
  modelled by a step function on a joint state, driven by a schedule.
-/

namespace Spaceballz

/-! ## Data model -/

/-- A Go `error`, represented by its message. -/
abbrev Error := String

/-- The byte `'\n'`. -/
def newline : UInt8 := 10

/-- The byte `'\r'`. -/
def carriageReturn : UInt8 := 13

/-- `amqp.Persistent`. -/
def Persistent : Nat := 2

/-- The fields of `amqp.Publishing` that `Blow` sets. -/
structure Publishing where
  Headers : List (String × String)
  ContentType : String
  ContentEncoding : String
  Body : List UInt8
  DeliveryMode : Nat
  Priority : Nat
deriving DecidableEq, Repr

/-- An `amqp.Delivery`: the broker's delivery tag and the payload. -/
structure Delivery where
  DeliveryTag : Nat
  Body : List UInt8
deriving DecidableEq, Repr

/-- An OS signal that `signal.Notify` was asked to forward. -/
inductive Signal where
  | SIGINT
  | SIGQUIT
  | SIGTERM
deriving DecidableEq, Repr

/-- An argument of a `log.Printf` / `log.Println` call, kept unformatted. -/
inductive LogArg where
  | str (s : String)
  | bytes (b : List UInt8)
  | sig (s : Signal)
deriving DecidableEq, Repr

/-- The observable effects of the program, one constructor per kind of call. -/
inductive Event where
  /-- `log.Printf(format, args...)` / `log.Println(args...)` (empty format). -/
  | log (format : String) (args : List LogArg)
  /-- `amqp.Dial(uri)`. -/
  | dial (uri : String)
  /-- `go func() { ... <-c.conn.NotifyClose(...) }()`. -/
  | goNotifyClose
  /-- `c.conn.Channel()`. -/
  | openChannel
  /-- `c.channel.Consume(queue, tag, noAck, exclusive, noLocal, noWait, nil)`. -/
  | consume (queue tag : String) (noAck exclusive noLocal noWait : Bool)
  /-- `go c.handle(deliveries, c.done)`. -/
  | goHandle
  /-- `channel.Publish(exchange, key, mandatory, immediate, msg)`. -/
  | publish (exchange key : String) (mandatory immediate : Bool) (msg : Publishing)
  /-- `os.Open(file)`. -/
  | openFile (path : String)
  /-- `inFile.Close()`. -/
  | closeFile
  /-- `fmt.Println(string(body))`: the body, then a newline, on standard output. -/
  | println (body : List UInt8)
  /-- `delivery.Ack(multiple)`. -/
  | ack (deliveryTag : Nat) (multiple : Bool)
  /-- `c.channel.Cancel(tag, noWait)`. -/
  | cancel (tag : String) (noWait : Bool)
  /-- `c.conn.Close()`. -/
  | connClose
  /-- `signal.Notify(ch, SIGINT, SIGQUIT, SIGTERM)`. -/
  | signalNotify
  /-- `done <- v`. -/
  | doneSend (v : Option Error)
  /-- `<-c.done` yielding `v`. -/
  | doneRecv (v : Option Error)
deriving DecidableEq, Repr

/-- The effects of a run, oldest first. -/
abbrev Trace := List Event

/-- How a function of the program ends. -/
inductive Outcome (α : Type) where
  /-- It returns. -/
  | returned (a : α)
  /-- `log.Fatal` / `log.Fatalf`: the message is logged and the process exits. -/
  | fatal (format : String) (args : List LogArg)
  /-- A run-time panic. -/
  | panic (msg : String)
  /-- It waits forever on a channel. -/
  | blocked
deriving DecidableEq, Repr

/-- The answers of the outside world to the calls the program makes. -/
structure World where
  /-- The error of `amqp.Dial(uri)`. -/
  dial : String → Option Error
  /-- The error of `conn.Channel()`. -/
  openChannel : Option Error
  /-- The error of `channel.Consume(queue, tag, ...)`. -/
  consume : String → String → Option Error
  /-- The error of `channel.Publish(exchange, key, _, _, msg)`; `Blow` drops it. -/
  publish : String → String → Publishing → Option Error
  /-- The content of the file `os.Open(path)` opens, or its error. -/
  openFile : String → Except Error (List UInt8)
  /-- The error of `channel.Cancel(tag, noWait)`. -/
  cancel : String → Bool → Option Error
  /-- The error of `conn.Close()`. -/
  connClose : Option Error
  /-- The signal delivered to the process, if one ever is. -/
  signal : Option Signal

/-- The struct `Spaceballz`; `σ` is the state the `Work` function acts on.
`conn` and `channel` record whether the handle is set, `done` whether the
channel was made. -/
structure Session (σ : Type) where
  conn : Bool
  channel : Bool
  tag : String
  done : Bool
  Work : Option (Delivery → σ → σ × Option Error)

/-! ## `bufio.Scanner` with `bufio.ScanLines` -/

/-- `bufio.MaxScanTokenSize`. -/
def MaxScanTokenSize : Nat := 64 * 1024

/-- Go `dropCR`: drop one trailing `'\r'`. -/
def dropCR (data : List UInt8) : List UInt8 :=
  if data.getLast? = some carriageReturn then data.dropLast else data

/-- Go `bytes.IndexByte(data, c)`; `none` stands for `-1`. -/
def indexByte : List UInt8 → UInt8 → Option Nat
  | [], _ => none
  | b :: bs, c => if b = c then some 0 else (indexByte bs c).map (· + 1)

/-- Go `bufio.ScanLines`: the advance and the token (`none` for a nil token,
which asks for more data). -/
def ScanLines (data : List UInt8) (atEOF : Bool) : Nat × Option (List UInt8) :=
  if atEOF && data.isEmpty then (0, none)
  else
    match indexByte data newline with
    | some i => (i + 1, some (dropCR (data.take i)))
    | none => if atEOF then (data.length, some (dropCR data)) else (0, none)

/-- The errors a `Scanner` over a regular file can hold. -/
inductive ScanErr where
  | ErrTooLong
deriving DecidableEq, Repr

/-- A `bufio.Scanner` reading a regular file: `input` is what remains of the
file from the start of the next token. -/
structure Scanner where
  input : List UInt8
  maxTokenSize : Nat
  token : List UInt8
  err : Option ScanErr
deriving DecidableEq, Repr

/-- Go `bufio.NewScanner(r)`. -/
def NewScanner (r : List UInt8) : Scanner :=
  { input := r, maxTokenSize := MaxScanTokenSize, token := [], err := none }

/-- Go `(*Scanner).Scan` with the split function `ScanLines`, on a regular file.
`Scan` offers the split function the unread bytes it holds, reading more and
growing its buffer up to `maxTokenSize` bytes (unread bytes are moved to the
front) as long as the answer is "more data". `ScanLines` answers with a token as
soon as a newline is among the bytes offered, so what counts is the largest
offer: the first `maxTokenSize` bytes of the remainder. A buffer that is full
without a token is `ErrTooLong`; end of file is seen, and the rest offered as a
last line, only by a read into a buffer with room left, that is when fewer than
`maxTokenSize` bytes remain. -/
def Scanner.Scan (s : Scanner) : Bool × Scanner :=
  let atEOF := decide (s.input.length < s.maxTokenSize)
  match ScanLines (s.input.take s.maxTokenSize) atEOF with
  | (advance, some token) => (true, { s with input := s.input.drop advance, token := token })
  | (_, none) =>
    (false, { s with token := [], err := if atEOF then s.err else some ScanErr.ErrTooLong })

/-- Go `(*Scanner).Bytes` / `(*Scanner).Text`. -/
def Scanner.Bytes (s : Scanner) : List UInt8 := s.token

/-- The tokens that successive `Scan` calls yield until one returns false;
`fuel` bounds the number of calls. -/
def Scanner.lines : Nat → Scanner → List (List UInt8)
  | 0, _ => []
  | fuel + 1, s =>
    match s.Scan with
    | (true, s') => s'.Bytes :: Scanner.lines fuel s'
    | (false, _) => []

/-! ## Connecting -/

/-- Go `fmt.Errorf(prefix + "%s", err)`. -/
def Errorf (pre : String) (err : Error) : Error := pre ++ err

/-- Go `NewBlower`: the effects, the session (`none` for nil) and the error. -/
def NewBlower (w : World) (amqpURI : String) : Trace × Option (Session Unit) × Option Error :=
  let t := [Event.log "dialing %q" [.str amqpURI], Event.dial amqpURI]
  match w.dial amqpURI with
  | some err => (t, none, some (Errorf "Dial: " err))
  | none =>
    let t := t ++ [Event.goNotifyClose, Event.log "got Connection, getting Channel" [],
      Event.openChannel]
    match w.openChannel with
    | some err => (t, none, some (Errorf "Channel: " err))
    | none =>
      (t, some { conn := true, channel := true, tag := "", done := false, Work := none }, none)

/-- Go `NewSucker`: the effects, the session (`none` for nil) and the error.
On success the task `handle(deliveries, c.done)` has been started. -/
def NewSucker {σ : Type} (w : World) (amqpURI queueName ctag : String)
    (work : Delivery → σ → σ × Option Error) : Trace × Option (Session σ) × Option Error :=
  let t := [Event.log "dialing %q" [.str amqpURI], Event.dial amqpURI]
  match w.dial amqpURI with
  | some err => (t, none, some (Errorf "Dial: " err))
  | none =>
    let t := t ++ [Event.goNotifyClose, Event.log "got Connection, getting Channel" [],
      Event.openChannel]
    match w.openChannel with
    | some err => (t, none, some (Errorf "Channel: " err))
    | none =>
      let t := t ++ [Event.consume queueName ctag false false false false]
      match w.consume queueName ctag with
      | some err => (t, none, some (Errorf "Queue Consume: " err))
      | none =>
        (t ++ [Event.goHandle],
          some { conn := true, channel := true, tag := ctag, done := true, Work := some work },
          none)

/-! ## Publishing -/

/-- The message `Blow` builds for one line. -/
def lineMessage (body : List UInt8) : Publishing :=
  { Headers := [], ContentType := "text/plain", ContentEncoding := "", Body := body,
    DeliveryMode := Persistent, Priority := 0 }

/-- The loop `for scanner.Scan() { ... Publish ... }` of `Blow`; the result of
`Publish` is dropped. `fuel` bounds the number of iterations. -/
def blowLoop (w : World) (queue : String) : Nat → Scanner → Trace
  | 0, _ => []
  | fuel + 1, scanner =>
    match scanner.Scan with
    | (true, scanner) =>
      let msg := lineMessage scanner.Bytes
      let _ := w.publish "" queue msg
      [Event.log "Publishing %s \n" [.bytes scanner.Bytes],
        Event.publish "" queue false false msg] ++ blowLoop w queue fuel scanner
    | (false, _) => []

/-- The wait `log.Println(<-ch)` after `signal.Notify`. -/
def awaitSignal (w : World) : Trace × Outcome Unit :=
  match w.signal with
  | some s => ([Event.signalNotify, Event.log "" [.sig s]], .returned ())
  | none => ([Event.signalNotify], .blocked)

/-- Go `Blow`. Every `Scan` that returns true consumes at least one byte, so
the loop runs at most once per byte of the file, plus the last, failing call. -/
def Blow (w : World) (uri queue file : String) : Trace × Outcome Unit :=
  match NewBlower w uri with
  | (t, _, some err) => (t, .fatal "Had some error %s" [.str err])
  | (t, _, none) =>
    let t := t ++ [Event.log "blower instantiated" [], Event.openFile file]
    match w.openFile file with
    | .error err => (t, .fatal "Had some error %s" [.str err])
    | .ok inFile =>
      let scanner := NewScanner inFile
      let t := t ++ [Event.log "Publishing to queue %s \n" [.str queue]]
        ++ blowLoop w queue (inFile.length + 1) scanner
      match awaitSignal w with
      | (t', .returned ()) => (t ++ t' ++ [Event.closeFile], .returned ())
      | (t', out) => (t ++ t', out)

/-! ## Consuming -/

/-- The loop `for d := range deliveries { c.Work(d) }` of `handle` over the
deliveries received so far; the result of `Work` is dropped. -/
def handleLoop {σ : Type} (work : Delivery → σ → σ × Option Error) : List Delivery → σ → σ
  | [], s => s
  | d :: deliveries, s => handleLoop work deliveries (work d s).1

/-- The end of Go `handle`: the log line and the send `done <- nil`. The channel
is unbuffered, so the send goes through only when some task receives from
`done` (`received`); otherwise `handle` stays blocked at it. -/
def handleSend (received : Bool) : Trace × Outcome Unit :=
  if received then
    ([Event.log "handle: deliveries channel closed" [], Event.doneSend none], .returned ())
  else ([Event.log "handle: deliveries channel closed" []], .blocked)

/-- Go `handle`, run on a deliveries channel that is closed after `deliveries`:
the state the `Work` calls leave, the task's own effects, and how it ends.
Calling a nil `Work` panics. -/
def handle {σ : Type} (c : Session σ) (deliveries : List Delivery) (received : Bool) (s : σ) :
    σ × Trace × Outcome Unit :=
  match c.Work, deliveries with
  | none, _ :: _ => (s, [], .panic "invalid memory address or nil pointer dereference")
  | none, [] => (s, handleSend received)
  | some work, _ => (handleLoop work deliveries s, handleSend received)

/-- The function literal `Suck` passes as `work`; its state is what it has
written to standard output and sent to the broker. -/
def suckWork (delivery : Delivery) (out : Trace) : Trace × Option Error :=
  (out ++ [Event.println delivery.Body, Event.ack delivery.DeliveryTag false], none)

/-- Go `Suck`: the effects of the calling task, the consumer whose `handle`
task it leaves running (the Go code drops the pointer, the task lives on), and
how it ends. -/
def Suck (w : World) (uri queue : String) : Trace × Option (Session Trace) × Outcome Unit :=
  match NewSucker w uri queue "spaceballz" suckWork with
  | (t, _, some err) => (t, none, .fatal "" [.str err])
  | (t, c, none) =>
    match awaitSignal w with
    | (t', out) => (t ++ t', c, out)

/-- Go `main`, after `flag.Parse()`: `args` is `flag.Args()`. The argument
`flag.Args()[0]` is evaluated before `Blow` is entered. -/
def main (w : World) (actionFlag uriFlag queueFlag : String) (args : List String) :
    Trace × Outcome Unit :=
  if actionFlag = "suck" then
    match Suck w uriFlag queueFlag with
    | (t, _, out) => (t, out)
  else if actionFlag = "blow" then
    match args with
    | [] => ([], .panic "index out of range [0] with length 0")
    | file :: _ => Blow w uriFlag queueFlag file
  else ([], .fatal "" [.str "Gotta suck or blow"])

/-! ## `Shutdown` and `handle` as two tasks -/

/-- Where the task running `Shutdown` stands. -/
inductive ShutdownPc where
  /-- Before `c.channel.Cancel(c.tag, true)`. -/
  | atCancel
  /-- Before `c.conn.Close()`. -/
  | atClose
  /-- At `<-c.done`. -/
  | atRecv
  /-- Returned `err`. -/
  | returned (err : Option Error)
deriving DecidableEq, Repr

/-- Where the task running `handle` stands. -/
inductive HandlePc where
  /-- At `for d := range deliveries`. -/
  | atRange
  /-- At `done <- v`, after the log line. -/
  | atSend (v : Option Error)
  /-- Returned. -/
  | exited
  /-- Panicked on a nil `Work`. -/
  | panicked
deriving DecidableEq, Repr

/-- The joint state of the two tasks, the deliveries channel and the world. -/
structure Sys (σ : Type) where
  shutdown : ShutdownPc
  handle : HandlePc
  /-- Deliveries sent by the broker and not yet received by `handle`. -/
  deliveries : List Delivery
  /-- Whether the deliveries channel is closed. -/
  closed : Bool
  /-- The state the `Work` function acts on. -/
  work : σ
  trace : Trace

/-- What can happen next. -/
inductive Action where
  /-- The broker delivers a message. -/
  | deliver (d : Delivery)
  /-- The library closes the deliveries channel on its own (connection lost). -/
  | closeDeliveries
  /-- The task running `Shutdown` is scheduled. -/
  | shutdown
  /-- The task running `handle` is scheduled. -/
  | handle
deriving DecidableEq, Repr

/-- The state in which `Shutdown` has just been called on a session whose
`handle` task waits for deliveries. -/
def Sys.init {σ : Type} (s : σ) : Sys σ :=
  { shutdown := .atCancel, handle := .atRange, deliveries := [], closed := false, work := s,
    trace := [] }

/-- One step of the task running Go `Shutdown`. A successful `Cancel` closes the
deliveries channel; a successful `conn.Close()` drops the deliveries that
`handle` has not received yet. The receive `<-c.done` goes through only when
`handle` stands at its send; the deferred log line runs before the return. -/
def Shutdown {σ : Type} (w : World) (c : Session σ) (s : Sys σ) : Sys σ :=
  match s.shutdown with
  | .atCancel =>
    match w.cancel c.tag true with
    | some err =>
      { s with trace := s.trace ++ [Event.cancel c.tag true],
               shutdown := .returned (some (Errorf "Consumer cancel failed: " err)) }
    | none =>
      { s with trace := s.trace ++ [Event.cancel c.tag true], closed := true,
               shutdown := .atClose }
  | .atClose =>
    match w.connClose with
    | some err =>
      { s with trace := s.trace ++ [Event.connClose],
               shutdown := .returned (some (Errorf "AMQP connection close error: " err)) }
    | none =>
      { s with trace := s.trace ++ [Event.connClose], deliveries := [], shutdown := .atRecv }
  | .atRecv =>
    match c.done, s.handle with
    | true, .atSend v =>
      { s with trace := s.trace ++ [Event.doneSend v, Event.doneRecv v,
                 Event.log "AMQP shutdown OK" []],
               shutdown := .returned v, handle := .exited }
    | _, _ => s
  | .returned _ => s

/-- One step of the task running Go `handle`: receive a delivery and call
`Work` on it, or see the channel closed and move to the send, or hand the value
to a `Shutdown` that stands at its receive. -/
def handleStep {σ : Type} (c : Session σ) (s : Sys σ) : Sys σ :=
  match s.handle with
  | .atRange =>
    match s.deliveries with
    | d :: deliveries =>
      match c.Work with
      | some work => { s with deliveries := deliveries, work := (work d s.work).1 }
      | none => { s with deliveries := deliveries, handle := .panicked }
    | [] =>
      if s.closed then
        { s with trace := s.trace ++ [Event.log "handle: deliveries channel closed" []],
                 handle := .atSend none }
      else s
  | .atSend v =>
    match c.done, s.shutdown with
    | true, .atRecv =>
      { s with trace := s.trace ++ [Event.doneSend v, Event.doneRecv v,
                 Event.log "AMQP shutdown OK" []],
               shutdown := .returned v, handle := .exited }
    | _, _ => s
  | .exited => s
  | .panicked => s

/-- One step of the joint system; an action that cannot happen leaves the state
as it is. -/
def step {σ : Type} (w : World) (c : Session σ) (s : Sys σ) : Action → Sys σ
  | .deliver d => if s.closed then s else { s with deliveries := s.deliveries ++ [d] }
  | .closeDeliveries => { s with closed := true }
  | .shutdown => Shutdown w c s
  | .handle => handleStep c s

/-- The state after a schedule. -/
def run {σ : Type} (w : World) (c : Session σ) (s : Sys σ) (schedule : List Action) : Sys σ :=
  schedule.foldl (step w c) s

/-! ## The spec's reading of "line" -/

/-- The lines of a file as the spec counts them: `cur` is the line being read;
a newline ends it, and what follows the last newline is a line when it is not
empty. -/
def specLinesFrom (cur : List UInt8) : List UInt8 → List (List UInt8)
  | [] => if cur.isEmpty then [] else [cur]
  | b :: bs => if b = newline then cur :: specLinesFrom [] bs else specLinesFrom (cur ++ [b]) bs

/-- The lines of a file as the spec counts them. -/
def specLines (file : List UInt8) : List (List UInt8) := specLinesFrom [] file

/-- Whether an effect is a `Publish` call. -/
def Event.isPublish : Event → Bool
  | .publish _ _ _ _ _ => true
  | _ => false

/-- Whether an effect belongs to Go `Shutdown`: cancel, close, or the receive on `done`. -/
def Event.isShutdown : Event → Bool
  | .cancel _ _ => true
  | .connClose => true
  | .doneRecv _ => true
  | _ => false

/-- Whether an effect reaches for the broker or a file. -/
def Event.isConnect : Event → Bool
  | .dial _ => true
  | .openChannel => true
  | .openFile _ => true
  | _ => false

/-- The tag of an acknowledgment, for any other effect `none`. -/
def Event.ackTag : Event → Option Nat
  | .ack deliveryTag _ => some deliveryTag
  | _ => none

/-- The body a `fmt.Println` wrote, for any other effect `none`. -/
def Event.printed : Event → Option (List UInt8)
  | .println body => some body
  | _ => none

/-- Whether an effect is a send on `done`. -/
def Event.isDoneSend : Event → Bool
  | .doneSend _ => true
  | _ => false

/-! ## Concrete worlds -/

/-- A world in which every call succeeds; every path opens `file`. -/
def okWorld (file : List UInt8) (signal : Option Signal) : World where
  dial := fun _ => none
  openChannel := none
  consume := fun _ _ => none
  publish := fun _ _ _ => none
  openFile := fun _ => Except.ok file
  cancel := fun _ _ => none
  connClose := none
  signal := signal

/-- A world in which the broker refuses the dial. -/
def dialFailWorld : World :=
  { okWorld [] none with dial := fun _ => some "connection refused" }

/-- A world in which the subscription cannot be cancelled. -/
def cancelFailWorld : World :=
  { okWorld [] none with cancel := fun _ _ => some "channel/connection is not open" }

/-- The consumer session `NewSucker` builds for `Suck`. -/
def suckSession : Session Trace :=
  { conn := true, channel := true, tag := "spaceballz", done := true, Work := some suckWork }

/-- A handler that prints the body and reports a failure, without acknowledging. -/
def failingWork (delivery : Delivery) (out : Trace) : Trace × Option Error :=
  (out ++ [Event.println delivery.Body], some "failed")

/-- A consumer session with the failing handler. -/
def failingSession : Session Trace :=
  { suckSession with Work := some failingWork }

/-- The deliveries `x` and `y`. -/
def deliveryX : Delivery := { DeliveryTag := 1, Body := [120] }

/-- The second delivery of the scenario. -/
def deliveryY : Delivery := { DeliveryTag := 2, Body := [121] }

/-- Whether an effect is a receive on `done`. -/
def Event.isDoneRecv : Event → Bool
  | .doneRecv _ => true
  | _ => false

/-- What holds in every state the two tasks can reach once `Shutdown` has been
called: `handle` only ever sends nil; it has exited only through the hand-over
to `Shutdown`, which is the one send and the one receive on `done`; and a
`Shutdown` that has returned did so on a failed cancel, on a failed close, or
with the value `handle` handed over. -/
def ShutdownInvariant {σ : Type} (w : World) (c : Session σ) (s : Sys σ) : Prop :=
  (∀ v, s.handle = .atSend v → v = none)
  ∧ (s.handle = .exited →
      s.shutdown = .returned none ∧ s.trace.filter Event.isDoneSend = [Event.doneSend none]
      ∧ s.trace.filter Event.isDoneRecv = [Event.doneRecv none])
  ∧ (s.handle ≠ .exited →
      s.trace.filter Event.isDoneSend = [] ∧ s.trace.filter Event.isDoneRecv = [])
  ∧ (∀ v, s.shutdown = .returned v →
      (∃ err, w.cancel c.tag true = some err
          ∧ v = some ("Consumer cancel failed: " ++ err) ∧ Event.connClose ∉ s.trace)
      ∨ (w.cancel c.tag true = none ∧ ∃ err, w.connClose = some err
          ∧ v = some ("AMQP connection close error: " ++ err))
      ∨ (w.cancel c.tag true = none ∧ w.connClose = none ∧ v = none ∧ s.handle = .exited))
  ∧ (s.shutdown = .atCancel → Event.connClose ∉ s.trace)
  ∧ (s.shutdown = .atClose → w.cancel c.tag true = none)
  ∧ (s.shutdown = .atRecv → w.cancel c.tag true = none ∧ w.connClose = none)

/-- A schedule on which `Shutdown` comes back: the broker delivers `handled` and
then `queued`, `handle` works through `handled`, `Shutdown` cancels and closes
while `queued` is still in the channel, `handle` sees the channel closed and
sends, and `Shutdown` receives. -/
def drainSchedule (handled queued : List Delivery) : List Action :=
  (handled ++ queued).map Action.deliver ++ List.replicate handled.length Action.handle
    ++ [Action.shutdown, Action.shutdown, Action.handle, Action.shutdown]

/-- A world in which the connection cannot be closed. -/
def closeFailWorld : World :=
  { okWorld [] none with connClose := some "connection reset by peer" }

/-- The file of the scenario: the lines a, b, c, the last one unterminated. -/
def abcFile : List UInt8 := [97, 10, 98, 10, 99]

/-- A file that is one line of 128 KiB, twice `MaxScanTokenSize`, without a
newline. -/
def longLine : List UInt8 := List.replicate (2 * MaxScanTokenSize) 97

/-! ## Theorems -/

/-! ### `main` -/

/-- C4: for every value of the action flag other than `suck` and `blow`, the
empty string included, `main` ends on the fatal "Gotta suck or blow" path and
has performed no effect at all before it: no dial, no channel, no file. -/
theorem main_other_action_is_fatal (w : World) (actionFlag uriFlag queueFlag : String)
    (args : List String) (hs : actionFlag ≠ "suck") (hb : actionFlag ≠ "blow") :
    main w actionFlag uriFlag queueFlag args = ([], .fatal "" [.str "Gotta suck or blow"])
      ∧ ∀ e ∈ (main w actionFlag uriFlag queueFlag args).1, e.isConnect = false := by
  have h : main w actionFlag uriFlag queueFlag args
      = ([], .fatal "" [.str "Gotta suck or blow"]) := by
    simp [main, hs, hb]
  refine ⟨h, ?_⟩
  rw [h]
  intro e he
  cases he

/-- C4 at the empty action flag. -/
theorem main_other_action_is_fatal_witness :
    main dialFailWorld "" "amqp://h" "Q" ["f"] = ([], .fatal "" [.str "Gotta suck or blow"]) :=
  (main_other_action_is_fatal dialFailWorld "" "amqp://h" "Q" ["f"] (by decide) (by decide)).1

/-- C6: with the action `blow` and no positional argument, `main` panics on
`flag.Args()[0]` having performed no effect: no file opened, no dial. -/
theorem main_blow_without_file_panics (w : World) (uriFlag queueFlag : String) :
    main w "blow" uriFlag queueFlag [] = ([], .panic "index out of range [0] with length 0") := by
  simp [main]

/-! ### Connecting -/

/-- C9: for every URI, `NewBlower` and `NewSucker` return no session and an
error that starts with "Dial: " when the dial fails, and no channel is then
asked for; after a successful dial exactly one channel is asked for, and when
that fails they return no session and an error that starts with "Channel: ";
`NewBlower` returns a session and a nil error exactly when both succeed, and
`NewSucker` does exactly when the subscription succeeds too, its failure giving
an error that starts with "Queue Consume: ". -/
theorem connect_errors {σ : Type} (w : World) (uri queue ctag : String)
    (work : Delivery → σ → σ × Option Error) :
    (∀ err, w.dial uri = some err →
        (NewBlower w uri).2 = (none, some ("Dial: " ++ err))
        ∧ (NewSucker w uri queue ctag work).2.2 = some ("Dial: " ++ err)
        ∧ (NewSucker w uri queue ctag work).2.1.isNone = true
        ∧ Event.openChannel ∉ (NewBlower w uri).1
        ∧ Event.openChannel ∉ (NewSucker w uri queue ctag work).1)
    ∧ (w.dial uri = none →
        (NewBlower w uri).1.count Event.openChannel = 1
        ∧ (NewSucker w uri queue ctag work).1.count Event.openChannel = 1
        ∧ ∀ err, w.openChannel = some err →
            (NewBlower w uri).2 = (none, some ("Channel: " ++ err))
            ∧ (NewSucker w uri queue ctag work).2.2 = some ("Channel: " ++ err)
            ∧ (NewSucker w uri queue ctag work).2.1.isNone = true)
    ∧ (∀ err, w.dial uri = none → w.openChannel = none → w.consume queue ctag = some err →
        (NewSucker w uri queue ctag work).2.2 = some ("Queue Consume: " ++ err)
        ∧ (NewSucker w uri queue ctag work).2.1.isNone = true)
    ∧ (((NewBlower w uri).2.1.isSome = true ∧ (NewBlower w uri).2.2 = none)
        ↔ (w.dial uri = none ∧ w.openChannel = none))
    ∧ (((NewSucker w uri queue ctag work).2.1.isSome = true
          ∧ (NewSucker w uri queue ctag work).2.2 = none)
        ↔ (w.dial uri = none ∧ w.openChannel = none ∧ w.consume queue ctag = none))
    ∧ ((NewBlower w uri).2.1.isSome = true ↔ (NewBlower w uri).2.2 = none)
    ∧ ((NewSucker w uri queue ctag work).2.1.isSome = true
        ↔ (NewSucker w uri queue ctag work).2.2 = none) := by
  cases hd : w.dial uri with
  | some e => simp [NewBlower, NewSucker, hd, Errorf]
  | none =>
    cases hc : w.openChannel with
    | some e => simp [NewBlower, NewSucker, hd, hc, Errorf]
    | none =>
      cases hq : w.consume queue ctag with
      | some e => simp [NewBlower, NewSucker, hd, hc, hq, Errorf]
      | none => simp [NewBlower, NewSucker, hd, hc, hq, Errorf]

/-- C9 where the dial is refused. -/
theorem connect_errors_witness :
    (NewBlower dialFailWorld "amqp://h").2 = (none, some ("Dial: " ++ "connection refused")) :=
  ((connect_errors dialFailWorld "amqp://h" "Q" "spaceballz" suckWork).1
    "connection refused" rfl).1

/-! ### Consuming -/

/-- The loop of `handle` is a left fold of `Work` over the deliveries. -/
theorem handleLoop_eq_foldl {σ : Type} (work : Delivery → σ → σ × Option Error)
    (deliveries : List Delivery) (s : σ) :
    handleLoop work deliveries s = deliveries.foldl (fun st d => (work d st).1) s := by
  induction deliveries generalizing s with
  | nil => rfl
  | cons d ds ih => simp [handleLoop, ih]

/-- The loop of `handle` over two batches of deliveries. -/
theorem handleLoop_append {σ : Type} (work : Delivery → σ → σ × Option Error)
    (ds₁ ds₂ : List Delivery) (s : σ) :
    handleLoop work (ds₁ ++ ds₂) s = handleLoop work ds₂ (handleLoop work ds₁ s) := by
  simp [handleLoop_eq_foldl]

/-- What the handler of `Suck` has written after a batch of deliveries. -/
theorem handleLoop_suckWork (deliveries : List Delivery) (out : Trace) :
    handleLoop suckWork deliveries out
      = out ++ deliveries.flatMap
          (fun d => [Event.println d.Body, Event.ack d.DeliveryTag false]) := by
  induction deliveries generalizing out with
  | nil => simp [handleLoop]
  | cons d ds ih => simp [handleLoop, suckWork, ih]

/-- C3: whatever deliveries the consumer started by `Suck` receives, its handler
prints each body and then acknowledges that delivery with `Ack(false)`, one
delivery after the other: the effects are print, ack, print, ack, ... in the
order of arrival, so the acknowledgments are exactly the deliveries' tags in
that order, one each, and the printed bodies are the deliveries' bodies; this
holds whether or not the send on `done` that follows is ever received. -/
theorem Suck_prints_then_acks (w : World) (uri queue : String) (c : Session Trace)
    (deliveries : List Delivery) (received : Bool)
    (hc : (Suck w uri queue).2.1 = some c) :
    c.Work = some suckWork
      ∧ (handle c deliveries received []).1
          = deliveries.flatMap (fun d => [Event.println d.Body, Event.ack d.DeliveryTag false])
      ∧ (handle c deliveries received []).1.filterMap Event.ackTag = deliveries.map (·.DeliveryTag)
      ∧ (handle c deliveries received []).1.filterMap Event.printed = deliveries.map (·.Body)
      ∧ ∀ e ∈ (handle c deliveries received []).1, ∀ tag multiple, e = Event.ack tag multiple →
          multiple = false := by
  have hw : c.Work = some suckWork := by
    unfold Suck NewSucker at hc
    cases hd : w.dial uri <;> simp only [hd] at hc
    · cases hch : w.openChannel <;> simp only [hch] at hc
      · cases hq : w.consume queue "spaceballz" <;> simp only [hq] at hc
        · simp at hc
          rw [← hc]
        · simp at hc
      · simp at hc
    · simp at hc
  have hh : (handle c deliveries received []).1
      = deliveries.flatMap (fun d => [Event.println d.Body, Event.ack d.DeliveryTag false]) := by
    simp [handle, hw, handleLoop_suckWork]
  refine ⟨hw, hh, ?_, ?_, ?_⟩
  · rw [hh]
    clear hh
    induction deliveries with
    | nil => rfl
    | cons d ds ih => simpa [List.flatMap_cons, Event.ackTag, List.filterMap_cons] using ih
  · rw [hh]
    clear hh
    induction deliveries with
    | nil => rfl
    | cons d ds ih => simpa [List.flatMap_cons, Event.printed, List.filterMap_cons] using ih
  · rw [hh]
    intro e he tag multiple heq
    subst heq
    simp [List.mem_flatMap] at he
    obtain ⟨d, _, hd⟩ := he
    exact hd.2

/-- C3 on the deliveries `x`, `y`: print x, ack x, print y, ack y. -/
theorem Suck_prints_then_acks_witness :
    (Suck (okWorld [] none) "amqp://h" "Q").2.1 = some suckSession
      ∧ (handle suckSession [deliveryX, deliveryY] false []).1
          = [Event.println [120], Event.ack 1 false, Event.println [121], Event.ack 2 false] :=
  ⟨rfl, (Suck_prints_then_acks (okWorld [] none) "amqp://h" "Q" suckSession
    [deliveryX, deliveryY] false rfl).2.1⟩

/-- C5, the code as it is: in consumer mode `main` performs none of the effects
of `Shutdown` in any world (no cancel of the subscription, no close of the
connection, no receive on `done`), and when the signal arrives after a
successful set-up it logs the signal and returns, which ends the process. -/
theorem main_suck_never_shuts_down (w : World) (uri queue : String) (args : List String) :
    (∀ e ∈ (main w "suck" uri queue args).1, e.isShutdown = false)
      ∧ ∀ sig, w.signal = some sig → w.dial uri = none → w.openChannel = none →
          w.consume queue "spaceballz" = none →
          main w "suck" uri queue args
            = ([Event.log "dialing %q" [.str uri], Event.dial uri, Event.goNotifyClose,
                Event.log "got Connection, getting Channel" [], Event.openChannel,
                Event.consume queue "spaceballz" false false false false, Event.goHandle,
                Event.signalNotify, Event.log "" [.sig sig]], .returned ()) := by
  constructor
  · cases hd : w.dial uri <;> cases hc : w.openChannel <;>
      cases hq : w.consume queue "spaceballz" <;> cases hs : w.signal <;>
      simp [main, Suck, NewSucker, awaitSignal, hd, hc, hq, hs, Event.isShutdown]
  · intro sig hs hd hc hq
    simp [main, Suck, NewSucker, awaitSignal, hd, hc, hq, hs]

/-- C5 at SIGTERM in a world where every call succeeds. -/
theorem main_suck_never_shuts_down_witness :
    main (okWorld [] (some Signal.SIGTERM)) "suck" "amqp://h" "Q" []
      = ([Event.log "dialing %q" [.str "amqp://h"], Event.dial "amqp://h", Event.goNotifyClose,
          Event.log "got Connection, getting Channel" [], Event.openChannel,
          Event.consume "Q" "spaceballz" false false false false, Event.goHandle,
          Event.signalNotify, Event.log "" [.sig Signal.SIGTERM]], .returned ()) :=
  (main_suck_never_shuts_down (okWorld [] (some Signal.SIGTERM)) "amqp://h" "Q" []).2
    Signal.SIGTERM rfl rfl rfl rfl

/-! ### `Shutdown` against `handle` -/

/-- The invariant holds when `Shutdown` is called. -/
theorem invariant_init {σ : Type} (w : World) (c : Session σ) (s : σ) :
    ShutdownInvariant w c (Sys.init s) := by
  simp [ShutdownInvariant, Sys.init]

/-- Every step keeps the invariant. -/
theorem invariant_step {σ : Type} (w : World) (c : Session σ) (s : Sys σ) (a : Action)
    (h : ShutdownInvariant w c s) : ShutdownInvariant w c (step w c s a) := by
  have hR := h
  obtain ⟨h1, h2, h3, h4, h5, h6, h7⟩ := h
  cases a with
  | deliver d =>
    simp only [step]
    split
    · exact ⟨h1, h2, h3, h4, h5, h6, h7⟩
    · exact ⟨h1, h2, h3, h4, h5, h6, h7⟩
  | closeDeliveries => exact ⟨h1, h2, h3, h4, h5, h6, h7⟩
  | shutdown =>
    simp only [step, Shutdown]
    cases hs : s.shutdown with
    | atCancel =>
      have hne : s.handle ≠ .exited := by
        intro he
        have := (h2 he).1
        rw [hs] at this
        cases this
      have h5' := h5 hs
      cases hw : w.cancel c.tag true with
      | some err =>
        simp only [ShutdownInvariant]
        refine ⟨h1, ?_, ?_, ?_, ?_, ?_, ?_⟩
        · intro he; exact absurd he hne
        · intro _; simpa [Event.isDoneSend, Event.isDoneRecv] using h3 hne
        · intro v hv
          left
          refine ⟨err, hw, ?_, ?_⟩
          · simpa [Errorf] using hv.symm
          · simpa using h5'
        · intro hh; cases hh
        · intro hh; cases hh
        · intro hh; cases hh
      | none =>
        simp only [ShutdownInvariant]
        refine ⟨h1, ?_, ?_, ?_, ?_, ?_, ?_⟩
        · intro he; exact absurd he hne
        · intro _; simpa [Event.isDoneSend, Event.isDoneRecv] using h3 hne
        · intro v hv; cases hv
        · intro hh; cases hh
        · intro _; exact hw
        · intro hh; cases hh
    | atClose =>
      have hne : s.handle ≠ .exited := by
        intro he
        have := (h2 he).1
        rw [hs] at this
        cases this
      have hcan := h6 hs
      cases hw : w.connClose with
      | some err =>
        simp only [ShutdownInvariant]
        refine ⟨h1, ?_, ?_, ?_, ?_, ?_, ?_⟩
        · intro he; exact absurd he hne
        · intro _; simpa [Event.isDoneSend, Event.isDoneRecv] using h3 hne
        · intro v hv
          right; left
          refine ⟨hcan, err, hw, ?_⟩
          simpa [Errorf] using hv.symm
        · intro hh; cases hh
        · intro hh; cases hh
        · intro hh; cases hh
      | none =>
        simp only [ShutdownInvariant]
        refine ⟨h1, ?_, ?_, ?_, ?_, ?_, ?_⟩
        · intro he; exact absurd he hne
        · intro _; simpa [Event.isDoneSend, Event.isDoneRecv] using h3 hne
        · intro v hv; cases hv
        · intro hh; cases hh
        · intro hh; cases hh
        · intro _; exact ⟨hcan, hw⟩
    | atRecv =>
      have hcc := h7 hs
      cases hd : c.done with
      | false => simpa [hs] using hR
      | true =>
        cases hh : s.handle with
        | atSend v =>
          have hv := h1 v hh
          subst hv
          have hne : s.handle ≠ .exited := by rw [hh]; simp
          have h3' := h3 hne
          simp only [ShutdownInvariant]
          refine ⟨?_, ?_, ?_, ?_, ?_, ?_, ?_⟩
          · intro v hv; cases hv
          · intro _
            refine ⟨trivial, ?_, ?_⟩
            · simp [List.filter_append, h3'.1, Event.isDoneSend]
            · simp [List.filter_append, h3'.2, Event.isDoneRecv]
          · intro hx; exact absurd rfl hx
          · intro v hv
            right; right
            refine ⟨hcc.1, hcc.2, ?_, trivial⟩
            simpa using hv.symm
          · intro hx; cases hx
          · intro hx; cases hx
          · intro hx; cases hx
        | atRange => simpa [hs, hh] using hR
        | exited => simpa [hs, hh] using hR
        | panicked => simpa [hs, hh] using hR
    | returned v => simpa [hs] using hR
  | handle =>
    simp only [step, handleStep]
    cases hh : s.handle with
    | atRange =>
      have hne : s.handle ≠ .exited := by rw [hh]; simp
      have h3' := h3 hne
      have h4' : ∀ v, s.shutdown = .returned v →
          (∃ err, w.cancel c.tag true = some err
              ∧ v = some ("Consumer cancel failed: " ++ err) ∧ Event.connClose ∉ s.trace)
          ∨ (w.cancel c.tag true = none ∧ ∃ err, w.connClose = some err
              ∧ v = some ("AMQP connection close error: " ++ err)) := by
        intro v hv
        rcases h4 v hv with h | h | h
        · exact Or.inl h
        · exact Or.inr h
        · rw [hh] at h; exact absurd h.2.2.2 (by simp)
      cases hq : s.deliveries with
      | cons d ds =>
        cases hw : c.Work with
        | some work =>
          simp only [ShutdownInvariant]
          refine ⟨?_, ?_, ?_, ?_, h5, h6, h7⟩
          · intro v hv; cases hv
          · intro hx; cases hx
          · intro _; exact h3'
          · intro v hv
            rcases h4' v hv with h | h
            · exact Or.inl h
            · exact Or.inr (Or.inl h)
        | none =>
          simp only [ShutdownInvariant]
          refine ⟨?_, ?_, ?_, ?_, h5, h6, h7⟩
          · intro v hv; cases hv
          · intro hx; cases hx
          · intro _; exact h3'
          · intro v hv
            rcases h4' v hv with h | h
            · exact Or.inl h
            · exact Or.inr (Or.inl h)
      | nil =>
        cases hcl : s.closed with
        | false => simpa [hh, hq, hcl] using hR
        | true =>
          simp only [ShutdownInvariant, if_true]
          refine ⟨?_, ?_, ?_, ?_, ?_, h6, h7⟩
          · intro v hv; cases hv; rfl
          · intro hx; cases hx
          · intro _; simpa [Event.isDoneSend, Event.isDoneRecv] using h3'
          · intro v hv
            rcases h4' v hv with ⟨err, h, h', h''⟩ | h
            · exact Or.inl ⟨err, h, h', by simpa using h''⟩
            · exact Or.inr (Or.inl h)
          · intro hx; simpa using h5 hx
    | atSend v =>
      have hv := h1 v hh
      subst hv
      have hne : s.handle ≠ .exited := by rw [hh]; simp
      have h3' := h3 hne
      cases hd : c.done with
      | false => simpa [hh] using hR
      | true =>
        cases hs : s.shutdown with
        | atRecv =>
          have hcc := h7 hs
          simp only [ShutdownInvariant]
          refine ⟨?_, ?_, ?_, ?_, ?_, ?_, ?_⟩
          · intro v hv; cases hv
          · intro _
            refine ⟨trivial, ?_, ?_⟩
            · simp [List.filter_append, h3'.1, Event.isDoneSend]
            · simp [List.filter_append, h3'.2, Event.isDoneRecv]
          · intro hx; exact absurd rfl hx
          · intro v hv
            right; right
            refine ⟨hcc.1, hcc.2, ?_, trivial⟩
            simpa using hv.symm
          · intro hx; cases hx
          · intro hx; cases hx
          · intro hx; cases hx
        | atCancel => simpa [hh, hs] using hR
        | atClose => simpa [hh, hs] using hR
        | returned v => simpa [hh, hs] using hR
    | exited => simpa [hh] using hR
    | panicked => simpa [hh] using hR

/-- Every schedule keeps the invariant. -/
theorem invariant_run {σ : Type} (w : World) (c : Session σ) (schedule : List Action)
    (s : Sys σ) (h : ShutdownInvariant w c s) : ShutdownInvariant w c (run w c s schedule) := by
  induction schedule generalizing s with
  | nil => exact h
  | cons a as ih => exact ih _ (invariant_step w c s a h)

/-- When the cancel fails, no value is ever sent on `done`. -/
theorem never_sent_after_failed_cancel {σ : Type} (w : World) (c : Session σ) (s0 : σ)
    (schedule : List Action) (err : Error) (hcancel : w.cancel c.tag true = some err) :
    (run w c (Sys.init s0) schedule).trace.filter Event.isDoneSend = [] := by
  obtain ⟨_, h2, h3, h4, _, _, _⟩ := invariant_run w c schedule _ (invariant_init w c s0)
  apply (h3 _).1
  intro hex
  rcases h4 none (h2 hex).1 with ⟨_, _, h, _⟩ | ⟨h, _⟩ | ⟨h, _⟩
  · cases h
  · rw [hcancel] at h; cases h
  · rw [hcancel] at h; cases h

/-- C10 as amended: for every handler and every finite sequence of deliveries
followed by the closing of the channel, `handle` calls the handler once per
delivery, in order, each call starting from the state the previous one left,
whatever the calls return (a handler that records its argument and returns any
result ends up with exactly the deliveries, in order); it then logs and sends
nil on `done`. When the send is received, that is the one value transmitted
and `handle` returns; when it is not, `handle` stays blocked at the send and
nothing is transmitted. In every execution next to `Shutdown` at most one value
is transmitted on `done`, it is nil, and it is transmitted exactly when
`handle` has exited. -/
theorem handle_calls_work_in_order {σ : Type} (c : Session σ)
    (work : Delivery → σ → σ × Option Error) (hw : c.Work = some work)
    (deliveries : List Delivery) (s : σ) :
    handle c deliveries true s
        = (deliveries.foldl (fun st d => (work d st).1) s,
            [Event.log "handle: deliveries channel closed" [], Event.doneSend none],
            .returned ())
      ∧ handle c deliveries false s
        = (deliveries.foldl (fun st d => (work d st).1) s,
            [Event.log "handle: deliveries channel closed" []], .blocked)
      ∧ (∀ (result : Delivery → Option Error) (seen : List Delivery) (received : Bool),
          (handle { c with Work := some (fun d st => (st ++ [d], result d)) }
            deliveries received seen).1 = seen ++ deliveries)
      ∧ ∀ (w : World) (schedule : List Action),
          (run w c (Sys.init s) schedule).trace.filter Event.isDoneSend
            = if (run w c (Sys.init s) schedule).handle = .exited then [Event.doneSend none]
              else [] := by
  refine ⟨?_, ?_, ?_, ?_⟩
  · simp [handle, handleSend, hw, handleLoop_eq_foldl]
  · simp [handle, handleSend, hw, handleLoop_eq_foldl]
  · intro result seen received
    simp only [handle]
    induction deliveries generalizing seen with
    | nil => simp [handleLoop]
    | cons d ds ih => simp [handleLoop, ih]
  · intro w schedule
    obtain ⟨_, h2, h3, _, _, _, _⟩ := invariant_run w c schedule _ (invariant_init w c s)
    by_cases hex : (run w c (Sys.init s) schedule).handle = .exited
    · rw [if_pos hex]; exact (h2 hex).2.1
    · rw [if_neg hex]; exact (h3 hex).1

/-- C10 as amended, with a handler that fails on every delivery. -/
theorem handle_calls_work_in_order_witness :
    handle failingSession [deliveryX, deliveryY] true []
      = ([Event.println [120], Event.println [121]],
          [Event.log "handle: deliveries channel closed" [], Event.doneSend none],
          .returned ()) :=
  (handle_calls_work_in_order failingSession failingWork rfl [deliveryX, deliveryY] []).1

/-- C10 as stated fails: with no receiver, `handle` works through the deliveries
x, y, logs, and blocks at its send; and in the world where the cancel fails,
`handle` reaches its send after `Shutdown` has returned, and on no schedule is
a value ever sent on `done`. -/
theorem handle_blocks_without_receiver :
    handle suckSession [deliveryX, deliveryY] false []
        = ([Event.println [120], Event.ack 1 false, Event.println [121], Event.ack 2 false],
            [Event.log "handle: deliveries channel closed" []], .blocked)
      ∧ (run cancelFailWorld suckSession (Sys.init ([] : Trace))
          [Action.deliver deliveryX, Action.deliver deliveryY, Action.shutdown,
            Action.closeDeliveries, Action.handle, Action.handle, Action.handle]).handle
          = .atSend none
      ∧ (run cancelFailWorld suckSession (Sys.init ([] : Trace))
          [Action.deliver deliveryX, Action.deliver deliveryY, Action.shutdown,
            Action.closeDeliveries, Action.handle, Action.handle, Action.handle]).shutdown
          = .returned (some "Consumer cancel failed: channel/connection is not open")
      ∧ ∀ schedule, (run cancelFailWorld suckSession (Sys.init ([] : Trace))
          schedule).trace.filter Event.isDoneSend = [] := by
  refine ⟨by decide, by decide, by decide, ?_⟩
  intro schedule
  exact never_sent_after_failed_cancel cancelFailWorld suckSession [] schedule _ rfl

/-- A schedule run in two parts. -/
theorem run_append {σ : Type} (w : World) (c : Session σ) (s : Sys σ) (as bs : List Action) :
    run w c s (as ++ bs) = run w c (run w c s as) bs := by
  simp [run, List.foldl_append]

/-- The broker delivering a batch to an open channel queues it. -/
theorem run_deliver {σ : Type} (w : World) (c : Session σ) (deliveries : List Delivery)
    (s : Sys σ) (hopen : s.closed = false) :
    run w c s (deliveries.map Action.deliver)
      = { s with deliveries := s.deliveries ++ deliveries } := by
  induction deliveries generalizing s with
  | nil => simp [run]
  | cons d ds ih =>
    have h := ih { s with deliveries := s.deliveries ++ [d] } hopen
    simp only [run, List.map_cons, List.foldl_cons, step, hopen] at h ⊢
    simpa using h

/-- The task `handle`, scheduled once per delivery at the head of the queue,
does what `handleLoop` does on them and leaves the rest queued. -/
theorem run_handle_drain {σ : Type} (w : World) (c : Session σ)
    (work : Delivery → σ → σ × Option Error) (hw : c.Work = some work)
    (deliveries rest : List Delivery) (s : Sys σ) (hpc : s.handle = .atRange)
    (hq : s.deliveries = deliveries ++ rest) :
    run w c s (List.replicate deliveries.length Action.handle)
      = { s with deliveries := rest, work := handleLoop work deliveries s.work } := by
  induction deliveries generalizing s with
  | nil =>
    cases s
    simp only [List.nil_append] at hq
    simp [run, handleLoop, hq]
  | cons d ds ih =>
    have h := ih { s with deliveries := ds ++ rest, work := (work d s.work).1 } hpc rfl
    simp only [run, List.length_cons, List.replicate_succ, List.foldl_cons, step, handleStep,
      hpc, hq, hw, List.cons_append] at h ⊢
    simpa [handleLoop] using h

/-- On the draining schedule `Shutdown` comes back with nil; `handle` has worked
through the deliveries it received before the close, and those still queued at
the close never reach `Work`. -/
theorem run_drainSchedule {σ : Type} (w : World) (c : Session σ)
    (work : Delivery → σ → σ × Option Error) (s0 : σ)
    (hcancel : w.cancel c.tag true = none) (hclose : w.connClose = none)
    (hdone : c.done = true) (hwork : c.Work = some work) (handled queued : List Delivery) :
    run w c (Sys.init s0) (drainSchedule handled queued)
      = { shutdown := .returned none, handle := .exited, deliveries := [], closed := true,
          work := handleLoop work handled s0,
          trace := [Event.cancel c.tag true, Event.connClose,
            Event.log "handle: deliveries channel closed" [], Event.doneSend none,
            Event.doneRecv none, Event.log "AMQP shutdown OK" []] } := by
  simp only [drainSchedule, run_append]
  rw [run_deliver w c (handled ++ queued) (Sys.init s0) rfl,
    run_handle_drain w c work hwork handled queued _ rfl (by simp [Sys.init])]
  simp [run, step, Shutdown, handleStep, Sys.init, hcancel, hclose, hdone]

/-- A `Shutdown` that has returned stays returned. -/
theorem step_returned {σ : Type} (w : World) (c : Session σ) (s : Sys σ) (a : Action)
    (v : Option Error) (h : s.shutdown = .returned v) :
    (step w c s a).shutdown = .returned v := by
  cases a with
  | deliver d =>
    simp only [step]
    split <;> exact h
  | closeDeliveries => exact h
  | shutdown => simp [step, Shutdown, h]
  | handle =>
    simp only [step, handleStep]
    cases hh : s.handle with
    | atRange =>
      cases hq : s.deliveries with
      | nil => cases hcl : s.closed <;> simp [h]
      | cons d ds => cases hw : c.Work <;> simp [h]
    | atSend v' => cases hd : c.done <;> simp [h]
    | exited => simp [h]
    | panicked => simp [h]

/-- A `Shutdown` that has returned stays returned on every schedule. -/
theorem run_returned {σ : Type} (w : World) (c : Session σ) (schedule : List Action)
    (s : Sys σ) (v : Option Error) (h : s.shutdown = .returned v) :
    (run w c s schedule).shutdown = .returned v := by
  induction schedule generalizing s with
  | nil => exact h
  | cons a as ih => exact ih _ (step_returned w c s a v h)

/-- Before its receive, `Shutdown` moves only when it is scheduled. -/
theorem step_other {σ : Type} (w : World) (c : Session σ) (s : Sys σ) (a : Action)
    (ha : a ≠ Action.shutdown) (h : s.shutdown ≠ .atRecv) :
    (step w c s a).shutdown = s.shutdown := by
  cases a with
  | deliver d =>
    simp only [step]
    split <;> rfl
  | closeDeliveries => rfl
  | shutdown => exact absurd rfl ha
  | handle =>
    simp only [step, handleStep]
    cases hh : s.handle with
    | atRange =>
      cases hq : s.deliveries with
      | nil => cases hcl : s.closed <;> simp
      | cons d ds => cases hw : c.Work <;> simp
    | atSend v' =>
      cases hd : c.done with
      | false => simp
      | true =>
        cases hs : s.shutdown with
        | atRecv => exact absurd hs h
        | atCancel => simp [hs]
        | atClose => simp [hs]
        | returned v => simp [hs]
    | exited => simp
    | panicked => simp

/-- Before its receive, `Shutdown` stands still on a schedule that does not
schedule it. -/
theorem run_other {σ : Type} (w : World) (c : Session σ) (schedule : List Action)
    (s : Sys σ) (hs : Action.shutdown ∉ schedule) (h : s.shutdown ≠ .atRecv) :
    (run w c s schedule).shutdown = s.shutdown := by
  induction schedule generalizing s with
  | nil => rfl
  | cons a as ih =>
    simp only [List.mem_cons, not_or] at hs
    have h1 := step_other w c s a (fun e => hs.1 e.symm) h
    have h2 := ih (step w c s a) hs.2 (by rw [h1]; exact h)
    simpa [run, h1] using h2

/-- At the cancel, a failure makes `Shutdown` return the wrapped error. -/
theorem step_cancel_fails {σ : Type} (w : World) (c : Session σ) (s : Sys σ) (err : Error)
    (hpc : s.shutdown = .atCancel) (hcancel : w.cancel c.tag true = some err) :
    (step w c s Action.shutdown).shutdown
      = .returned (some ("Consumer cancel failed: " ++ err)) := by
  simp [step, Shutdown, hpc, hcancel, Errorf]

/-- At the cancel, success moves `Shutdown` on to the close. -/
theorem step_cancel_succeeds {σ : Type} (w : World) (c : Session σ) (s : Sys σ)
    (hpc : s.shutdown = .atCancel) (hcancel : w.cancel c.tag true = none) :
    (step w c s Action.shutdown).shutdown = .atClose := by
  simp [step, Shutdown, hpc, hcancel]

/-- At the close, a failure makes `Shutdown` return the wrapped error. -/
theorem step_close_fails {σ : Type} (w : World) (c : Session σ) (s : Sys σ) (err : Error)
    (hpc : s.shutdown = .atClose) (hclose : w.connClose = some err) :
    (step w c s Action.shutdown).shutdown
      = .returned (some ("AMQP connection close error: " ++ err)) := by
  simp [step, Shutdown, hpc, hclose, Errorf]

/-- A failed cancel makes the first step of `Shutdown` return the wrapped error. -/
theorem run_cancel_fails {σ : Type} (w : World) (c : Session σ) (s0 : σ) (err : Error)
    (hcancel : w.cancel c.tag true = some err) (before after : List Action)
    (hb : Action.shutdown ∉ before) :
    (run w c (Sys.init s0) (before ++ Action.shutdown :: after)).shutdown
      = .returned (some ("Consumer cancel failed: " ++ err)) := by
  have h0 : (run w c (Sys.init s0) before).shutdown = .atCancel :=
    run_other w c before (Sys.init s0) hb (by simp [Sys.init])
  rw [run_append]
  show (run w c (step w c (run w c (Sys.init s0) before) Action.shutdown) after).shutdown = _
  exact run_returned w c after _ _ (step_cancel_fails w c _ err h0 hcancel)

/-- After a successful cancel a failed close makes the second step of `Shutdown`
return the wrapped error. -/
theorem run_close_fails {σ : Type} (w : World) (c : Session σ) (s0 : σ) (err : Error)
    (hcancel : w.cancel c.tag true = none) (hclose : w.connClose = some err)
    (before between after : List Action) (hb : Action.shutdown ∉ before)
    (hm : Action.shutdown ∉ between) :
    (run w c (Sys.init s0)
        (before ++ Action.shutdown :: (between ++ Action.shutdown :: after))).shutdown
      = .returned (some ("AMQP connection close error: " ++ err)) := by
  have h0 : (run w c (Sys.init s0) before).shutdown = .atCancel :=
    run_other w c before (Sys.init s0) hb (by simp [Sys.init])
  have h1 : (step w c (run w c (Sys.init s0) before) Action.shutdown).shutdown = .atClose :=
    step_cancel_succeeds w c _ h0 hcancel
  have h2 : (run w c (step w c (run w c (Sys.init s0) before) Action.shutdown)
      between).shutdown = .atClose := by
    rw [run_other w c between _ hm (by rw [h1]; simp), h1]
  rw [run_append]
  show (run w c (step w c (run w c (Sys.init s0) before) Action.shutdown)
    (between ++ Action.shutdown :: after)).shutdown = _
  rw [run_append]
  show (run w c (step w c (run w c (step w c (run w c (Sys.init s0) before) Action.shutdown)
    between) Action.shutdown) after).shutdown = _
  exact run_returned w c after _ _ (step_close_fails w c _ err h2 hclose)

/-- C7: on a consumer session whose cancel and close succeed, in every
execution in which `Shutdown` has returned, the value it returned is nil, the
`handle` task has exited through the hand-over on `done`, and that hand-over is
the only send and the only receive on `done`, both of nil: `Shutdown` returns
the value `handle` sent and not before. And `Shutdown` does return: when
`handle` has worked through the deliveries it received, `Shutdown` cancels and
closes, and `handle` then sees the channel closed and sends, `Shutdown` comes
back with nil; the deliveries still queued at the close are dropped and never
reach `Work`. -/
theorem Shutdown_returns_what_handle_sends {σ : Type} (w : World) (c : Session σ)
    (work : Delivery → σ → σ × Option Error) (s0 : σ)
    (hcancel : w.cancel c.tag true = none) (hclose : w.connClose = none)
    (hdone : c.done = true) (hwork : c.Work = some work) :
    (∀ schedule v, (run w c (Sys.init s0) schedule).shutdown = .returned v →
        v = none
        ∧ (run w c (Sys.init s0) schedule).handle = .exited
        ∧ (run w c (Sys.init s0) schedule).trace.filter Event.isDoneSend = [Event.doneSend none]
        ∧ (run w c (Sys.init s0) schedule).trace.filter Event.isDoneRecv
            = [Event.doneRecv none])
      ∧ ∀ handled queued,
          (run w c (Sys.init s0) (drainSchedule handled queued)).shutdown = .returned none
          ∧ (run w c (Sys.init s0) (drainSchedule handled queued)).handle = .exited
          ∧ (run w c (Sys.init s0) (drainSchedule handled queued)).work
              = handleLoop work handled s0 := by
  constructor
  · intro schedule v hv
    obtain ⟨_, h2, _, h4, _, _, _⟩ := invariant_run w c schedule _ (invariant_init w c s0)
    rcases h4 v hv with ⟨err, h, _⟩ | ⟨_, err, h, _⟩ | ⟨_, _, hnil, hex⟩
    · rw [hcancel] at h; cases h
    · rw [hclose] at h; cases h
    · exact ⟨hnil, hex, (h2 hex).2.1, (h2 hex).2.2⟩
  · intro handled queued
    rw [run_drainSchedule w c work s0 hcancel hclose hdone hwork handled queued]
    exact ⟨rfl, rfl, rfl⟩

/-- C7 on the consumer of `Suck`: `x` is handled before `Shutdown` is scheduled,
`y` is still queued when the connection is closed; `Shutdown` returns nil and
only `x` was printed and acknowledged. -/
theorem Shutdown_returns_what_handle_sends_witness :
    (run (okWorld [] none) suckSession (Sys.init []) (drainSchedule [deliveryX] [deliveryY])).shutdown
        = .returned none
      ∧ (run (okWorld [] none) suckSession (Sys.init [])
          (drainSchedule [deliveryX] [deliveryY])).handle = .exited
      ∧ (run (okWorld [] none) suckSession (Sys.init [])
          (drainSchedule [deliveryX] [deliveryY])).work
            = [Event.println [120], Event.ack 1 false] :=
  (Shutdown_returns_what_handle_sends (okWorld [] none) suckSession suckWork [] rfl rfl rfl
    rfl).2 [deliveryX] [deliveryY]

/-- C8 as stated fails: when the cancel fails, `Shutdown` has returned after its
first step while `handle` still waits for deliveries and nothing was received
on `done`. -/
theorem Shutdown_returns_early_on_cancel_failure :
    (run cancelFailWorld suckSession (Sys.init []) [Action.shutdown]).shutdown
        = .returned (some "Consumer cancel failed: channel/connection is not open")
      ∧ (run cancelFailWorld suckSession (Sys.init []) [Action.shutdown]).handle = .atRange
      ∧ (run cancelFailWorld suckSession (Sys.init []) [Action.shutdown]).trace
          = [Event.cancel "spaceballz" true] := by
  decide

/-- C8 as amended. When the cancel fails, the first step of `Shutdown` returns
the wrapped cancel error, whatever the other tasks did before and do after.
When the cancel succeeds and the close fails, its second step returns the
wrapped close error. And in every execution in which `Shutdown` has returned,
either the cancel failed and it returned the wrapped cancel error without
having closed the connection, `handle` not having exited and nothing having
been received on `done`; or the cancel succeeded, the close failed and it
returned the wrapped close error, again without `handle` having exited or a
receive on `done`; or both succeeded, and then it returned nil, after the one
receive on `done`, which `handle` has exited through. -/
theorem Shutdown_return_cases {σ : Type} (w : World) (c : Session σ) (s0 : σ) :
    (∀ err, w.cancel c.tag true = some err → ∀ before after, Action.shutdown ∉ before →
        (run w c (Sys.init s0) (before ++ Action.shutdown :: after)).shutdown
          = .returned (some ("Consumer cancel failed: " ++ err)))
    ∧ (∀ err, w.cancel c.tag true = none → w.connClose = some err →
        ∀ before between after, Action.shutdown ∉ before → Action.shutdown ∉ between →
        (run w c (Sys.init s0)
            (before ++ Action.shutdown :: (between ++ Action.shutdown :: after))).shutdown
          = .returned (some ("AMQP connection close error: " ++ err)))
    ∧ ∀ schedule v, (run w c (Sys.init s0) schedule).shutdown = .returned v →
      (∃ err, w.cancel c.tag true = some err
          ∧ v = some ("Consumer cancel failed: " ++ err)
          ∧ Event.connClose ∉ (run w c (Sys.init s0) schedule).trace
          ∧ (run w c (Sys.init s0) schedule).handle ≠ .exited
          ∧ (run w c (Sys.init s0) schedule).trace.filter Event.isDoneRecv = [])
      ∨ (w.cancel c.tag true = none ∧ ∃ err, w.connClose = some err
          ∧ v = some ("AMQP connection close error: " ++ err)
          ∧ (run w c (Sys.init s0) schedule).handle ≠ .exited
          ∧ (run w c (Sys.init s0) schedule).trace.filter Event.isDoneRecv = [])
      ∨ (w.cancel c.tag true = none ∧ w.connClose = none ∧ v = none
          ∧ (run w c (Sys.init s0) schedule).handle = .exited
          ∧ (run w c (Sys.init s0) schedule).trace.filter Event.isDoneRecv
              = [Event.doneRecv none]) := by
  refine ⟨?_, ?_, ?_⟩
  · intro err hcancel before after hb
    exact run_cancel_fails w c s0 err hcancel before after hb
  · intro err hcancel hclose before between after hb hm
    exact run_close_fails w c s0 err hcancel hclose before between after hb hm
  · intro schedule v hret
    obtain ⟨_, h2, h3, h4, _, _, _⟩ := invariant_run w c schedule _ (invariant_init w c s0)
    have hne : ∀ e : Error, v = some e →
        (run w c (Sys.init s0) schedule).handle ≠ .exited := by
      intro e hv hex
      have := (h2 hex).1
      rw [hret, hv] at this
      cases this
    rcases h4 v hret with ⟨err, h, hv, hc⟩ | ⟨hcan, err, h, hv⟩ | ⟨hcan, hcl, hnil, hex⟩
    · exact Or.inl ⟨err, h, hv, hc, hne _ hv, (h3 (hne _ hv)).2⟩
    · exact Or.inr (Or.inl ⟨hcan, err, h, hv, hne _ hv, (h3 (hne _ hv)).2⟩)
    · exact Or.inr (Or.inr ⟨hcan, hcl, hnil, hex, (h2 hex).2.2⟩)

/-- C8 as amended, where the cancel fails after a delivery, and where the close
fails after `handle` has taken that delivery. -/
theorem Shutdown_return_cases_witness :
    (run cancelFailWorld suckSession (Sys.init ([] : Trace))
        ([Action.deliver deliveryX] ++ Action.shutdown :: [Action.handle])).shutdown
      = .returned (some ("Consumer cancel failed: " ++ "channel/connection is not open"))
    ∧ (run closeFailWorld suckSession (Sys.init ([] : Trace))
        ([Action.deliver deliveryX] ++ Action.shutdown
          :: ([Action.handle] ++ Action.shutdown :: [Action.handle]))).shutdown
      = .returned (some ("AMQP connection close error: " ++ "connection reset by peer")) :=
  ⟨(Shutdown_return_cases cancelFailWorld suckSession []).1 _ rfl
      [Action.deliver deliveryX] [Action.handle] (by decide),
    (Shutdown_return_cases closeFailWorld suckSession []).2.1 _ rfl rfl
      [Action.deliver deliveryX] [Action.handle] [Action.handle] (by decide) (by decide)⟩

/-! ### The scanner -/

/-- A byte that does not occur has no index. -/
theorem indexByte_eq_none (data : List UInt8) (c : UInt8) (h : c ∉ data) :
    indexByte data c = none := by
  induction data with
  | nil => rfl
  | cons b bs ih =>
    simp only [List.mem_cons, not_or] at h
    have hb : b ≠ c := fun e => h.1 e.symm
    simp [indexByte, hb, ih h.2]

/-- The index of the first occurrence of a byte. -/
theorem indexByte_append (l r : List UInt8) (c : UInt8) (h : c ∉ l) :
    indexByte (l ++ c :: r) c = some l.length := by
  induction l with
  | nil => simp [indexByte]
  | cons b bs ih =>
    simp only [List.mem_cons, not_or] at h
    have hb : b ≠ c := fun e => h.1 e.symm
    simp [indexByte, hb, ih h.2]

/-- A list in which a byte occurs, cut at its first occurrence. -/
theorem exists_split (data : List UInt8) (c : UInt8) (h : c ∈ data) :
    ∃ l r, data = l ++ c :: r ∧ c ∉ l := by
  induction data with
  | nil => cases h
  | cons b bs ih =>
    by_cases hb : b = c
    · exact ⟨[], bs, by simp [hb], by simp⟩
    · have hmem : c ∈ bs := by
        rcases List.mem_cons.mp h with h | h
        · exact absurd h.symm hb
        · exact h
      obtain ⟨l, r, hlr, hl⟩ := ih hmem
      refine ⟨b :: l, r, by simp [hlr], ?_⟩
      simp only [List.mem_cons, not_or]
      exact ⟨fun e => hb e.symm, hl⟩

/-- The first newline ends the line being read. -/
theorem specLinesFrom_append (cur l r : List UInt8) (h : newline ∉ l) :
    specLinesFrom cur (l ++ newline :: r) = (cur ++ l) :: specLinesFrom [] r := by
  induction l generalizing cur with
  | nil => simp [specLinesFrom]
  | cons b bs ih =>
    simp only [List.mem_cons, not_or] at h
    have hb : b ≠ newline := fun e => h.1 e.symm
    simp [specLinesFrom, hb, ih _ h.2]

/-- Without a newline, what is left is the last line, unless it is empty. -/
theorem specLinesFrom_last (cur l : List UInt8) (h : newline ∉ l) :
    specLinesFrom cur l = if (cur ++ l).isEmpty then [] else [cur ++ l] := by
  induction l generalizing cur with
  | nil => simp [specLinesFrom]
  | cons b bs ih =>
    simp only [List.mem_cons, not_or] at h
    have hb : b ≠ newline := fun e => h.1 e.symm
    simp [specLinesFrom, hb, ih _ h.2]

/-- `Scan` on a line that fits the buffer yields it and moves past its newline. -/
theorem Scan_line (s : Scanner) (l r : List UInt8) (hin : s.input = l ++ newline :: r)
    (hl : newline ∉ l) (hlen : l.length < s.maxTokenSize) :
    s.Scan = (true, { s with input := r, token := dropCR l }) := by
  have htake : s.input.take s.maxTokenSize
      = l ++ newline :: r.take (s.maxTokenSize - l.length - 1) := by
    rw [hin, List.take_append_eq_append_take, List.take_of_length_le (le_of_lt hlen)]
    congr 1
    obtain ⟨k, hk⟩ : ∃ k, s.maxTokenSize - l.length = k + 1 := ⟨s.maxTokenSize - l.length - 1, by omega⟩
    rw [hk]
    simp
  simp only [Scanner.Scan, htake, ScanLines, indexByte_append _ _ _ hl]
  simp [hin]


/-- `Scan` fails on a terminated line that does not fit the buffer. -/
theorem Scan_line_tooLong (s : Scanner) (l r : List UInt8) (hin : s.input = l ++ newline :: r)
    (hl : newline ∉ l) (hlen : s.maxTokenSize ≤ l.length) :
    s.Scan.1 = false := by
  have htake : s.input.take s.maxTokenSize = l.take s.maxTokenSize := by
    rw [hin, List.take_append_of_le_length hlen]
  have hnl : newline ∉ l.take s.maxTokenSize := fun h => hl (List.mem_of_mem_take h)
  have hlt : ¬ s.input.length < s.maxTokenSize := by
    rw [hin]; simp; omega
  simp [Scanner.Scan, htake, ScanLines, indexByte_eq_none _ _ hnl, hlt]

/-- `Scan` yields a last, unterminated line that leaves room in the buffer. -/
theorem Scan_last (s : Scanner) (hl : newline ∉ s.input) (hne : s.input ≠ [])
    (hlen : s.input.length < s.maxTokenSize) :
    s.Scan = (true, { s with input := [], token := dropCR s.input }) := by
  have htake : s.input.take s.maxTokenSize = s.input := List.take_of_length_le (le_of_lt hlen)
  simp [Scanner.Scan, htake, ScanLines, indexByte_eq_none _ _ hl, hlen, hne]

/-- `Scan` fails at the end of the file. -/
theorem Scan_eof (s : Scanner) (hin : s.input = []) : s.Scan.1 = false := by
  by_cases h : 0 < s.maxTokenSize <;> simp [Scanner.Scan, hin, ScanLines, h, indexByte]

/-- `Scan` fails on an unterminated line that fills the buffer. -/
theorem Scan_last_tooLong (s : Scanner) (hl : newline ∉ s.input)
    (hlen : s.maxTokenSize ≤ s.input.length) : s.Scan.1 = false := by
  have hnl : newline ∉ s.input.take s.maxTokenSize := fun h => hl (List.mem_of_mem_take h)
  have hlt : ¬ s.input.length < s.maxTokenSize := by omega
  simp [Scanner.Scan, ScanLines, indexByte_eq_none _ _ hnl, hlt]

/-- A failing `Scan` ends the lines. -/
theorem lines_of_Scan_false (fuel : Nat) (s : Scanner) (h : s.Scan.1 = false) :
    s.lines (fuel + 1) = [] := by
  cases hs : s.Scan with
  | mk b s' =>
    rw [hs] at h
    simp only at h
    subst h
    simp [Scanner.lines, hs]

/-- A successful `Scan` contributes its token. -/
theorem lines_of_Scan_true (fuel : Nat) (s s' : Scanner) (h : s.Scan = (true, s')) :
    s.lines (fuel + 1) = s'.token :: s'.lines fuel := by
  simp [Scanner.lines, h, Scanner.Bytes]

/-- With one call more than there are bytes, the scanner yields the lines of the
file up to the first one that does not fit its buffer, each without a trailing
carriage return. -/
theorem Scanner_lines_eq (fuel : Nat) (s : Scanner) (hfuel : s.input.length < fuel) :
    s.lines fuel
      = ((specLines s.input).takeWhile (fun l => decide (l.length < s.maxTokenSize))).map
          dropCR := by
  induction fuel generalizing s with
  | zero => omega
  | succ fuel ih =>
    by_cases hmem : newline ∈ s.input
    · obtain ⟨l, r, hin, hl⟩ := exists_split _ _ hmem
      have hspec : specLines s.input = l :: specLines r := by
        rw [hin]
        simpa [specLines] using specLinesFrom_append [] l r hl
      by_cases hlen : l.length < s.maxTokenSize
      · rw [lines_of_Scan_true fuel s _ (Scan_line s l r hin hl hlen), hspec]
        have hr : r.length < fuel := by
          rw [hin] at hfuel; simp at hfuel; omega
        have := ih { s with input := r, token := dropCR l } hr
        simp only at this
        simp [List.takeWhile_cons, hlen, this]
      · rw [lines_of_Scan_false fuel s (Scan_line_tooLong s l r hin hl (by omega)), hspec]
        simp [List.takeWhile_cons, hlen]
    · have hspec : specLines s.input = if s.input.isEmpty then [] else [s.input] := by
        simpa [specLines] using specLinesFrom_last [] s.input hmem
      by_cases hne : s.input = []
      · rw [lines_of_Scan_false fuel s (Scan_eof s hne), hspec]
        simp [hne]
      · by_cases hlen : s.input.length < s.maxTokenSize
        · rw [lines_of_Scan_true fuel s _ (Scan_last s hmem hne hlen), hspec]
          have hpos : 0 < fuel := by
            have : 0 < s.input.length := List.length_pos.mpr hne
            omega
          have := ih { s with input := [], token := dropCR s.input } (by simpa using hpos)
          simp only at this
          simp [hne, List.takeWhile_cons, hlen, this, specLines, specLinesFrom]
        · rw [lines_of_Scan_false fuel s (Scan_last_tooLong s hmem (by omega)), hspec]
          simp [hne, List.takeWhile_cons, hlen]

/-! ### Publishing -/

/-- The loop of `Blow` logs and publishes once per scanned line. -/
theorem blowLoop_eq (w : World) (queue : String) (fuel : Nat) (s : Scanner) :
    blowLoop w queue fuel s
      = (s.lines fuel).flatMap (fun body =>
          [Event.log "Publishing %s \n" [.bytes body],
            Event.publish "" queue false false (lineMessage body)]) := by
  induction fuel generalizing s with
  | zero => rfl
  | succ fuel ih =>
    cases hs : s.Scan with
    | mk b s' =>
      cases b with
      | true => simp [blowLoop, Scanner.lines, hs, ih, Scanner.Bytes]
      | false => simp [blowLoop, Scanner.lines, hs]

/-- The `Publish` calls among the effects of the loop of `Blow`. -/
theorem blowLoop_publishes (w : World) (queue : String) (fuel : Nat) (s : Scanner) :
    (blowLoop w queue fuel s).filter Event.isPublish
      = (s.lines fuel).map (fun body => Event.publish "" queue false false (lineMessage body)) := by
  rw [blowLoop_eq]
  induction s.lines fuel with
  | nil => rfl
  | cons b bs ih => simp [List.flatMap_cons, List.filter_cons, Event.isPublish, ih]

/-- The `Publish` calls of `Blow` once the broker is connected and the file is
open: one per line the scanner yields, in order. -/
theorem Blow_publishes (w : World) (uri queue file : String) (content : List UInt8)
    (hdial : w.dial uri = none) (hchan : w.openChannel = none)
    (hopen : w.openFile file = .ok content) :
    (Blow w uri queue file).1.filter Event.isPublish
      = ((NewScanner content).lines (content.length + 1)).map
          (fun body => Event.publish "" queue false false (lineMessage body)) := by
  cases hs : w.signal with
  | none =>
    simp [Blow, NewBlower, awaitSignal, hdial, hchan, hopen, hs, List.filter_append,
      Event.isPublish, blowLoop_publishes]
  | some sig =>
    simp [Blow, NewBlower, awaitSignal, hdial, hchan, hopen, hs, List.filter_append,
      Event.isPublish, blowLoop_publishes]

/-- A newline added after a last, unterminated line adds no line. -/
theorem specLinesFrom_append_newline (cur l : List UInt8) (hne : cur ++ l ≠ [])
    (hlast : l.getLast? ≠ some newline) :
    specLinesFrom cur (l ++ [newline]) = specLinesFrom cur l := by
  induction l generalizing cur with
  | nil =>
    have : cur ≠ [] := by simpa using hne
    simp [specLinesFrom, this]
  | cons b bs ih =>
    have hbs : bs.getLast? ≠ some newline := by
      cases bs with
      | nil => simp
      | cons b' bs' => simpa [List.getLast?_cons_cons] using hlast
    by_cases hb : b = newline
    · have hne' : [] ++ bs ≠ [] := by
        intro h
        simp at h
        subst h
        subst hb
        simp at hlast
      simp [specLinesFrom, hb, ih [] hne' hbs]
    · simp [specLinesFrom, hb, ih (cur ++ [b]) (by simp) hbs]

/-- The `Publish` calls of `Blow` in terms of the lines of the file: one per
line before the first line that does not fit the scanner's buffer. -/
theorem Blow_publishes_spec (w : World) (uri queue file : String) (content : List UInt8)
    (hdial : w.dial uri = none) (hchan : w.openChannel = none)
    (hopen : w.openFile file = .ok content) :
    (Blow w uri queue file).1.filter Event.isPublish
      = ((specLines content).takeWhile (fun l => decide (l.length < MaxScanTokenSize))).map
          (fun l => Event.publish "" queue false false
            { Headers := [], ContentType := "text/plain", ContentEncoding := "",
              Body := dropCR l, DeliveryMode := Persistent, Priority := 0 }) := by
  rw [Blow_publishes w uri queue file content hdial hchan hopen,
    Scanner_lines_eq (content.length + 1) (NewScanner content) (by simp [NewScanner])]
  simp [NewScanner, List.map_map, Function.comp_def, lineMessage]

/-- The long line has twice `MaxScanTokenSize` bytes. -/
theorem longLine_length : longLine.length = 2 * MaxScanTokenSize := by
  unfold longLine
  exact List.length_replicate _ _

/-- The long line holds no newline. -/
theorem newline_not_mem_longLine : newline ∉ longLine := by
  intro h
  have h97 : newline = 97 := List.eq_of_mem_replicate h
  revert h97
  decide

/-- The long line is the one line of its file. -/
theorem specLines_longLine : specLines longLine = [longLine] := by
  have hne : longLine ≠ [] := by
    intro h
    have := longLine_length
    rw [h] at this
    revert this
    decide
  have h := specLinesFrom_last [] longLine newline_not_mem_longLine
  rw [List.nil_append] at h
  rw [specLines, h]
  simp [hne]

/-- C1: once the broker is connected and a non-empty file is open, `Blow` makes
exactly as many `Publish` calls as the scanner (split function `ScanLines`,
default buffer) yields lines for the file; the scanner is run to its end, more
calls yield nothing more; when every line fits the buffer that number is the
number of lines of the file, and a last line counts whether or not a newline
ends it: the file with a newline added after an unterminated last line scans to
the same lines. -/
theorem Blow_publishes_once_per_line (w : World) (uri queue file : String)
    (content : List UInt8) (hne : content ≠ []) (hdial : w.dial uri = none)
    (hchan : w.openChannel = none) (hopen : w.openFile file = .ok content) :
    ((Blow w uri queue file).1.filter Event.isPublish).length
        = ((NewScanner content).lines (content.length + 1)).length
      ∧ (∀ fuel, content.length < fuel →
          (NewScanner content).lines fuel = (NewScanner content).lines (content.length + 1))
      ∧ ((∀ l ∈ specLines content, l.length < MaxScanTokenSize) →
          ((Blow w uri queue file).1.filter Event.isPublish).length
            = (specLines content).length)
      ∧ (content.getLast? ≠ some newline →
          (NewScanner (content ++ [newline])).lines (content.length + 2)
            = (NewScanner content).lines (content.length + 1)) := by
  have hpub := Blow_publishes w uri queue file content hdial hchan hopen
  refine ⟨?_, ?_, ?_, ?_⟩
  · rw [hpub, List.length_map]
  · intro fuel hfuel
    rw [Scanner_lines_eq fuel (NewScanner content) (by simpa [NewScanner] using hfuel),
      Scanner_lines_eq (content.length + 1) (NewScanner content) (by simp [NewScanner])]
  · intro hall
    rw [hpub, List.length_map,
      Scanner_lines_eq (content.length + 1) (NewScanner content) (by simp [NewScanner])]
    have : (specLines (NewScanner content).input).takeWhile
        (fun l => decide (l.length < (NewScanner content).maxTokenSize))
        = specLines content := by
      show List.takeWhile (fun l => decide (l.length < MaxScanTokenSize)) (specLines content)
        = specLines content
      rw [List.takeWhile_eq_self_iff]
      intro l hl
      simpa using hall l hl
    rw [this, List.length_map]
  · intro hlast
    rw [Scanner_lines_eq (content.length + 2) (NewScanner (content ++ [newline]))
        (by simp [NewScanner]),
      Scanner_lines_eq (content.length + 1) (NewScanner content) (by simp [NewScanner])]
    have : specLines (content ++ [newline]) = specLines content :=
      specLinesFrom_append_newline [] content (by simpa using hne) hlast
    simp [NewScanner, this]

/-- C1 on the file with the lines a, b, c: three `Publish` calls. -/
theorem Blow_publishes_once_per_line_witness :
    ((Blow (okWorld abcFile none) "amqp://h" "Q" "f").1.filter Event.isPublish).length = 3 :=
  (Blow_publishes_once_per_line (okWorld abcFile none) "amqp://h" "Q" "f" abcFile
    (by decide) rfl rfl rfl).1.trans (by decide)

/-- C2 as stated fails: the file that is one line of 131072 bytes has one line,
and `Blow` makes no `Publish` call for it. -/
theorem Blow_skips_long_line :
    specLines longLine = [longLine]
      ∧ (Blow (okWorld longLine none) "amqp://h" "Q" "f").1.filter Event.isPublish = [] := by
  refine ⟨specLines_longLine, ?_⟩
  rw [Blow_publishes_spec (okWorld longLine none) "amqp://h" "Q" "f" longLine rfl rfl rfl,
    specLines_longLine]
  simp [List.takeWhile_cons, longLine_length, MaxScanTokenSize]

/-- C2 as amended: once the broker is connected and the file is open, the
`Publish` calls of `Blow` are, in file order, one per line of the file up to
the first line of `MaxScanTokenSize` (65536) bytes or more, from which on there
is none; each call has exchange "", routing key the queue name, mandatory and
immediate false, content type "text/plain", content encoding "", delivery mode
persistent, priority 0, and as body the line without a trailing carriage
return. When every line is shorter than that, there is one call per line. -/
theorem Blow_publishes_each_line (w : World) (uri queue file : String)
    (content : List UInt8) (hdial : w.dial uri = none) (hchan : w.openChannel = none)
    (hopen : w.openFile file = .ok content) :
    (Blow w uri queue file).1.filter Event.isPublish
        = ((specLines content).takeWhile (fun l => decide (l.length < MaxScanTokenSize))).map
            (fun l => Event.publish "" queue false false
              { Headers := [], ContentType := "text/plain", ContentEncoding := "",
                Body := dropCR l, DeliveryMode := Persistent, Priority := 0 })
      ∧ ((∀ l ∈ specLines content, l.length < MaxScanTokenSize) →
          (Blow w uri queue file).1.filter Event.isPublish
            = (specLines content).map
                (fun l => Event.publish "" queue false false
                  { Headers := [], ContentType := "text/plain", ContentEncoding := "",
                    Body := dropCR l, DeliveryMode := Persistent, Priority := 0 })) := by
  have h := Blow_publishes_spec w uri queue file content hdial hchan hopen
  refine ⟨h, ?_⟩
  intro hall
  have : (specLines content).takeWhile (fun l => decide (l.length < MaxScanTokenSize))
      = specLines content := by
    rw [List.takeWhile_eq_self_iff]
    intro l hl
    simpa using hall l hl
  rw [h, this]

/-- C2 as amended on the file with the lines a, b, c and the queue `Q`. -/
theorem Blow_publishes_each_line_witness :
    (Blow (okWorld abcFile none) "amqp://h" "Q" "f").1.filter Event.isPublish
      = [Event.publish "" "Q" false false
          { Headers := [], ContentType := "text/plain", ContentEncoding := "", Body := [97],
            DeliveryMode := Persistent, Priority := 0 },
        Event.publish "" "Q" false false
          { Headers := [], ContentType := "text/plain", ContentEncoding := "", Body := [98],
            DeliveryMode := Persistent, Priority := 0 },
        Event.publish "" "Q" false false
          { Headers := [], ContentType := "text/plain", ContentEncoding := "", Body := [99],
            DeliveryMode := Persistent, Priority := 0 }] :=
  (Blow_publishes_each_line (okWorld abcFile none) "amqp://h" "Q" "f" abcFile rfl rfl rfl).1.trans
    (by decide)

end Spaceballz
